import Mathlib

/-!
Verification development for the multi-provider travel-offer aggregation core:
`DataNormalizer` (normalizeFlight / normalizeHotel / normalizeTransport,
parseDuration, mergeDuplicates, generateMergeKey), `RealBookingAggregator`
(searchFlights / searchHotels / identifyBestDeals) and `BookingAggregator`
(search, searchAllSources, cache discipline).

The TypeScript source is embedded shallowly: JS numbers are modelled as exact
rationals (`ℚ`), with the non-finite values `NaN` / `±Infinity` made explicit
where the code can produce them; absent (`undefined`) fields are `Option`;
code that can throw returns `Except`.  External provider calls (the stubbed
`searchSkyscanner`, `searchAgoda`, ... methods, which contact real APIs) are
modelled as input parameters carrying each call's settled outcome, exactly the
values `Promise.allSettled` hands back to the aggregation logic.  The ambient
clock (`Date.now()` / `new Date().toISOString()`) and the random id suffix
(`Math.random().toString(36)`) are passed as explicit parameters.
-/

namespace Travel

/-! ## JS-flavoured primitives -/

/-- A JS number as the discount computation can observe it: a finite value
(modelled exactly as a rational) or one of `NaN`, `Infinity`, `-Infinity`,
which JS division by zero produces. -/
inductive JsNum where
  | nan
  | inf
  | ninf
  | val (q : ℚ)
deriving DecidableEq, Repr

/-- `Math.round` on a finite value: round half toward positive infinity,
i.e. the floor of `q + 1/2` (written with `Rat.floor`, which the kernel can
evaluate). -/
def jsRound (q : ℚ) : ℤ := (q + 1 / 2).floor

/-- ASCII lower-casing, as `String.prototype.toLowerCase` acts on the ASCII
strings of this code base (defined over the character list so the kernel can
evaluate it). -/
def strToLower (s : String) : String := ⟨s.data.map Char.toLower⟩

/-- Does `s` start with `pat` (on character lists)? -/
def charsStartWith : List Char → List Char → Bool
  | [], _ => true
  | _ :: _, [] => false
  | p :: ps, c :: cs => p = c && charsStartWith ps cs

/-- Does `pat` occur inside `s` (on character lists)? -/
def charsContain (pat : List Char) : List Char → Bool
  | [] => charsStartWith pat []
  | c :: cs => charsStartWith pat (c :: cs) || charsContain pat cs

/-- JS `s.includes(pat)`. -/
def strIncludes (s pat : String) : Bool := charsContain pat.data s.data

/-- JS `a || b` for an optionally-present string `a` with default `b`
(the empty string is falsy). -/
def jsOrS (a : Option String) (b : String) : String :=
  match a with
  | some s => if s = "" then b else s
  | none => b

/-- JS `a || b` for an optionally-present number `a` with default `b`
(`0` is falsy). -/
def jsOrQ (a : Option ℚ) (b : ℚ) : ℚ :=
  match a with
  | some q => if q = 0 then b else q
  | none => b

/-! ## Merge keys (`DataNormalizer.generateMergeKey`) -/

/-- The three fields `generateMergeKey` reads off its (duck-typed) argument:
`_result.from`, `_result.to`, `_result.departure`, each possibly absent.
`NormalizedFlight` and `NormalizedHotel` have none of them as top-level
fields, so their views are all-`none`; `NormalizedTransport` has them, but as
objects, which the template literal stringifies. -/
structure MergeKeyView where
  from? : Option String
  to? : Option String
  departure? : Option String
deriving DecidableEq, Repr

/-- `DataNormalizer.generateMergeKey`:
`` `${_result.from || ''}-${_result.to || ''}-${_result.departure || ''}` ``. -/
def generateMergeKey (v : MergeKeyView) : String :=
  jsOrS v.from? "" ++ "-" ++ jsOrS v.to? "" ++ "-" ++ jsOrS v.departure? ""

/-! ## Grouping by key, in first-appearance order (JS `Map` semantics) -/

/-- Add `x` to the group keyed `k`, creating the group at the end if the key
is new — exactly what the `grouped.has / grouped.set / push` sequence does on
a JS `Map`, whose iteration order is key-insertion order. -/
def insertGrouped {T : Type} (k : String) (x : T) :
    List (String × List T) → List (String × List T)
  | [] => [(k, [x])]
  | (k', g) :: rest =>
    if k' = k then (k', g ++ [x]) :: rest else (k', g) :: insertGrouped k x rest

/-- Group a list by a key function; groups appear in order of first key
appearance, members in input order. -/
def groupPairs {T : Type} (key : T → String) (rs : List T) :
    List (String × List T) :=
  rs.foldl (fun acc x => insertGrouped (key x) x acc) []

/-- JS `group.reduce((best, current) => current.price < best.price ? current : best)`:
no initial value, so the accumulator starts at the first element; on a price
tie the earlier element is kept. -/
def reduceMin {T : Type} (pr : T → ℚ) : List T → Option T
  | [] => none
  | x :: xs => some (xs.foldl (fun best cur => if pr cur < pr best then cur else best) x)

/-! ## `DataNormalizer.mergeDuplicates` -/

/-- The per-group choice inside `mergeDuplicates`: a singleton group passes
through; a larger group is collapsed to the reduce-min element. -/
def pickRepresentative {T : Type} (pr : T → ℚ) (g : List T) : Option T :=
  if g.length = 1 then g.head? else reduceMin pr g

/-- `DataNormalizer.mergeDuplicates`: group by `generateMergeKey` (through the
duck-typed field view), then keep one representative per group, in group
first-appearance order. -/
def mergeDuplicates {T : Type} (view : T → MergeKeyView) (pr : T → ℚ)
    (results : List T) : List T :=
  (groupPairs (fun x => generateMergeKey (view x)) results).filterMap
    (fun p => pickRepresentative pr p.2)

/-! ## Stable sort by price (JS `Array.prototype.sort` with a numeric comparator) -/

/-- Insert into a sorted list, after existing equal elements (stable). -/
def sortInsertBy {T : Type} (pr : T → ℚ) (x : T) : List T → List T
  | [] => [x]
  | y :: ys => if pr x ≤ pr y then x :: y :: ys else y :: sortInsertBy pr x ys

/-- Stable ascending sort by a numeric projection, the behaviour of
`arr.sort((a, b) => pr(a) - pr(b))`. -/
def stableSortBy {T : Type} (pr : T → ℚ) : List T → List T
  | [] => []
  | x :: xs => sortInsertBy pr x (stableSortBy pr xs)

/-! ## Collecting `Promise.allSettled` outcomes -/

/-- One provider call's settled outcome: fulfilled with records, or rejected
with an error message. -/
abbrev Outcome (ρ : Type) := Except String (List ρ)

deriving instance DecidableEq for Except

/-- The `results.forEach(r => { if (r.status === 'fulfilled') push(...r.value) })`
pattern after `Promise.allSettled`: concatenate fulfilled record lists,
silently dropping rejections. -/
def collectFulfilled {ρ : Type} (outcomes : List (Outcome ρ)) : List ρ :=
  outcomes.foldl
    (fun acc r => match r with | .ok v => acc ++ v | .error _ => acc) []

/-! ## `RealBookingAggregator` data model -/

/-- One leg of a `FlightRoute` (raw provider shape). -/
structure RouteSegment where
  «from» : String
  «to» : String
  airline : String
  flightNumber : String
  departure : String
  arrival : String
  duration : String
  price : ℚ
  currency : String
deriving DecidableEq, Repr

/-- `FlightRoute` as returned by the flight sources. -/
structure FlightRoute where
  segments : List RouteSegment
  totalPrice : ℚ
  totalDuration : String
  layovers : ℕ
  source : String
deriving DecidableEq, Repr

/-- `HotelDeal` as returned by the hotel sources.  `firstTimeDeal` and
`discount` are the optional fields `identifyBestDeals` writes. -/
structure HotelDeal where
  name : String
  location : String
  price : ℚ
  currency : String
  rating : ℚ
  reviews : ℕ
  amenities : List String
  cancellationPolicy : String
  specialDeals : List String
  source : String
  url : String
  firstTimeDeal : Option Bool := none
  discount : Option JsNum := none
deriving DecidableEq, Repr

/-- `Experience` as returned by the experience sources. -/
structure Experience where
  name : String
  location : String
  price : ℚ
  currency : String
  duration : String
  rating : ℚ
  reviews : ℕ
  category : String
  source : String
  url : String
deriving DecidableEq, Repr

/-! ## `RealBookingAggregator.identifyBestDeals` -/

/-- `Math.max(...prices)` on a (nonempty) price list; JS would give
`-Infinity` on an empty call, which `identifyBestDeals` never makes. -/
def listMaxQ : List ℚ → ℚ
  | [] => 0
  | x :: xs => xs.foldl max x

/-- Minimum of a (nonempty) price list, companion of `listMaxQ`. -/
def listMinQ : List ℚ → ℚ
  | [] => 0
  | x :: xs => xs.foldl min x

/-- `Math.round(((maxPrice - cheapestPrice) / maxPrice) * 100)` under JS
semantics: with `maxPrice = 0` the division yields `NaN` (numerator `0`) or
`±Infinity`, which `Math.round` maps to itself; otherwise the arithmetic is
finite and modelled exactly. -/
def computeDiscount (maxPrice cheapestPrice : ℚ) : JsNum :=
  if maxPrice = 0 then
    if maxPrice - cheapestPrice = 0 then .nan
    else if 0 < maxPrice - cheapestPrice then .inf else .ninf
  else .val (jsRound ((maxPrice - cheapestPrice) / maxPrice * 100))

/-- The body of the `grouped.forEach` in `identifyBestDeals`: take the
reduce-min (cheapest) deal of the group, set its `firstTimeDeal` flag from
the whole group's `specialDeals`, and, when the group has more than one
member, attach `discount = Math.round(((maxPrice - cheapest.price) / maxPrice) * 100)`. -/
def bestOfGroup (hotelDeals : List HotelDeal) : Option HotelDeal :=
  match reduceMin (fun d => d.price) hotelDeals with
  | none => none
  | some cheapest =>
    let cheapest := { cheapest with
      firstTimeDeal := some (hotelDeals.any fun d =>
        d.specialDeals.any fun sd =>
          strIncludes (strToLower sd) "first" ||
          strIncludes (strToLower sd) "new user") }
    let cheapest :=
      if 1 < hotelDeals.length then
        let prices := hotelDeals.map (fun d => d.price)
        let maxPrice := listMaxQ prices
        { cheapest with discount := some (computeDiscount maxPrice cheapest.price) }
      else cheapest
    some cheapest

/-- `RealBookingAggregator.identifyBestDeals`: group the deals by
`deal.name.toLowerCase()`, keep the per-group best (see `bestOfGroup`), and
sort ascending by price. -/
def identifyBestDeals (deals : List HotelDeal) : List HotelDeal :=
  stableSortBy (fun d => d.price)
    ((groupPairs (fun d => strToLower d.name) deals).filterMap
      (fun p => bestOfGroup p.2))

/-! ## `RealBookingAggregator` searches

The fifteen flight / hotel provider calls and the four experience calls are
external API stubs; each is modelled by its settled outcome, which is what
`Promise.allSettled` delivers to the collection loop. -/

/-- `RealBookingAggregator.searchFlights`, lines 53–97: collect the fulfilled
outcomes, append the multi-city routes when `flexible` is set
(`findMultiCityRoutes` catches its own errors and returns a plain list), and
sort ascending by `totalPrice`. -/
def searchFlights (outcomes : List (Outcome FlightRoute)) (flexible : Bool)
    (multiCityRoutes : List FlightRoute) : List FlightRoute :=
  let routes := collectFulfilled outcomes
  let routes := if flexible then routes ++ multiCityRoutes else routes
  stableSortBy (fun r => r.totalPrice) routes

/-- `RealBookingAggregator.searchHotels`: collect the fulfilled outcomes and
run `identifyBestDeals` over them. -/
def searchHotels (outcomes : List (Outcome HotelDeal)) : List HotelDeal :=
  identifyBestDeals (collectFulfilled outcomes)

/-- `RealBookingAggregator.searchExperiences`: collect the fulfilled outcomes
and sort ascending by price. -/
def searchExperiences (outcomes : List (Outcome Experience)) : List Experience :=
  stableSortBy (fun e => e.price) (collectFulfilled outcomes)

/-! ## `DataNormalizer`: raw shapes and duration parsing -/

/-- The `duration` field as the (duck-typed) raw records carry it: absent
(`undefined`), a number, or a string. -/
inductive JsDuration where
  | undef
  | num (q : ℚ)
  | str (s : String)
deriving DecidableEq, Repr

/-- JS truthiness of a `duration`-typed value (used by
`if (data.totalDuration)`). -/
def jsTruthyDur : JsDuration → Bool
  | .undef => false
  | .num q => q ≠ 0
  | .str s => s ≠ ""

/-- Decimal value of a digit string, as `parseInt` reads the captured
digits. -/
def digitsToNat (l : List Char) : ℕ :=
  l.foldl (fun n c => n * 10 + (c.toNat - 48)) 0

/-- Leftmost match of the regex `/(\d+)x/` for a literal character `x`: the
first maximal digit run immediately followed by `x`, scanning one character
at a time exactly as the regex engine advances its start position. -/
def matchNumBefore (c : Char) : List Char → Option (List Char)
  | [] => none
  | x :: xs =>
    if x.isDigit then
      match (x :: xs).dropWhile Char.isDigit with
      | c' :: _ =>
        if c' = c then some ((x :: xs).takeWhile Char.isDigit)
        else matchNumBefore c xs
      | [] => none
    else matchNumBefore c xs

/-- `DataNormalizer.parseDuration`: a number is returned as-is; a string is
matched against `/(\d+)h/` and `/(\d+)m/` with `'0'` defaults; an absent
(`undefined`) duration is NOT guarded by the `typeof` check, so
`duration.match(...)` throws a `TypeError`. -/
def parseDuration : JsDuration → Except String ℚ
  | .num q => .ok q
  | .undef => .error "TypeError: Cannot read properties of undefined (reading 'match')"
  | .str s =>
    let hours := (matchNumBefore 'h' s.data).getD ['0']
    let minutes := (matchNumBefore 'm' s.data).getD ['0']
    .ok ((digitsToNat hours * 60 + digitsToNat minutes : ℕ) : ℚ)

/-- The object form of a raw `price` field. -/
structure PriceObj where
  amount? : Option ℚ
  currency? : Option String
  originalCurrency? : Option String
  exchangeRate? : Option ℚ
deriving DecidableEq, Repr

/-- A raw `price` field: absent, a bare number, or an object. -/
inductive JsPrice where
  | undef
  | num (q : ℚ)
  | obj (o : PriceObj)
deriving DecidableEq, Repr

/-- `NormalizedFlight['price']` (also used verbatim for transport). -/
structure FlightPrice where
  amount : ℚ
  currency : String
  originalCurrency : Option String
  exchangeRate : Option ℚ
deriving DecidableEq, Repr

/-- `DataNormalizer.normalizePrice`:
`amount = typeof price === 'number' ? price : (price?.amount || price || 0)`;
`curr = currency || price?.currency || 'USD'`.  (When `price` is an object
whose `amount` is `0` or absent, the JS `||` chain falls through to the
truthy price object itself — a non-numeric value; the records this code base
produces carry numeric amounts, and we model the numeric reading, `0`.) -/
def normalizePrice (price : JsPrice) (currency : Option String) : FlightPrice :=
  let amount : ℚ :=
    match price with
    | .num q => q
    | .undef => 0
    | .obj o => o.amount?.getD 0
  let curr :=
    jsOrS currency
      (match price with
       | .obj o => jsOrS o.currency? "USD"
       | _ => "USD")
  { amount := amount
    currency := curr
    originalCurrency := match price with | .obj o => o.originalCurrency? | _ => none
    exchangeRate := match price with | .obj o => o.exchangeRate? | _ => none }

/-- `NormalizedHotel['price']`: per-night flag added. -/
structure HotelPrice where
  amount : ℚ
  currency : String
  perNight : Bool
  originalCurrency : Option String
  exchangeRate : Option ℚ
deriving DecidableEq, Repr

/-- `DataNormalizer.normalizeHotelPrice`: like `normalizePrice`, with
`perNight: true`. -/
def normalizeHotelPrice (price : JsPrice) (currency : Option String) : HotelPrice :=
  let p := normalizePrice price currency
  { amount := p.amount
    currency := p.currency
    perNight := true
    originalCurrency := p.originalCurrency
    exchangeRate := p.exchangeRate }

/-- A `{code, name, city}` endpoint of a normalized segment / transport. -/
structure Endpoint where
  code : String
  name : String
  city : String
deriving DecidableEq, Repr

/-- A `{datetime, timezone}` pair. -/
structure DateTimeTz where
  datetime : String
  timezone : String
deriving DecidableEq, Repr

/-- The object form of a raw segment endpoint (`seg.from` / `seg.to`). -/
structure EndpointObj where
  code? : Option String
  name? : Option String
  city? : Option String
deriving DecidableEq, Repr

/-- A raw flight segment as `normalizeSegments` reads it. -/
structure RawSegment where
  fromCode : Option String
  fromName : Option String
  fromCity : Option String
  from? : Option EndpointObj
  toCode : Option String
  toName : Option String
  toCity : Option String
  to? : Option EndpointObj
  airline : Option String
  carrier : Option String
  flightNumber : Option String
  number : Option String
  departure : Option String
  departureTime : Option String
  departureTimezone : Option String
  arrival : Option String
  arrivalTime : Option String
  arrivalTimezone : Option String
  duration : JsDuration
  aircraft : Option String
deriving DecidableEq, Repr

/-- A normalized flight segment. -/
structure Segment where
  «from» : Endpoint
  «to» : Endpoint
  airline : String
  flightNumber : String
  departure : DateTimeTz
  arrival : DateTimeTz
  duration : ℚ
  aircraft : Option String
deriving DecidableEq, Repr

/-- The per-segment body of `DataNormalizer.normalizeSegments` (the
`parseDuration` call can throw when `seg.duration` is absent). -/
def normalizeSegment (seg : RawSegment) : Except String Segment :=
  match parseDuration seg.duration with
  | .error e => .error e
  | .ok dur => .ok {
    «from» := {
      code := jsOrS seg.fromCode (jsOrS (seg.from?.bind (fun e => e.code?)) "")
      name := jsOrS seg.fromName (jsOrS (seg.from?.bind (fun e => e.name?)) "")
      city := jsOrS seg.fromCity (jsOrS (seg.from?.bind (fun e => e.city?)) "") }
    «to» := {
      code := jsOrS seg.toCode (jsOrS (seg.to?.bind (fun e => e.code?)) "")
      name := jsOrS seg.toName (jsOrS (seg.to?.bind (fun e => e.name?)) "")
      city := jsOrS seg.toCity (jsOrS (seg.to?.bind (fun e => e.city?)) "") }
    airline := jsOrS seg.airline (jsOrS seg.carrier "")
    flightNumber := jsOrS seg.flightNumber (jsOrS seg.number "")
    departure := {
      datetime := jsOrS seg.departure (jsOrS seg.departureTime "")
      timezone := jsOrS seg.departureTimezone "UTC" }
    arrival := {
      datetime := jsOrS seg.arrival (jsOrS seg.arrivalTime "")
      timezone := jsOrS seg.arrivalTimezone "UTC" }
    duration := dur
    aircraft := seg.aircraft }

/-- `DataNormalizer.normalizeSegments`. -/
def normalizeSegments (segments : List RawSegment) : Except String (List Segment) :=
  segments.mapM normalizeSegment

/-- JS `a || b || []` over optionally-present arrays: an array (even empty)
is truthy, so the chain falls through only on absence. -/
def jsOrArr {α : Type} (a b : Option (List α)) : List α :=
  ((a.orElse fun _ => b).getD [])

/-- A `layover` entry of a normalized flight. -/
structure Layover where
  airport : String
  duration : ℚ
deriving DecidableEq, Repr

/-- A normalized flight's `baggage` record. -/
structure Baggage where
  included : Bool
  allowance : Option String
deriving DecidableEq, Repr

/-- The raw flight record as `normalizeFlight` reads it. -/
structure RawFlight where
  id : Option String
  segments : Option (List RawSegment)
  flights : Option (List RawSegment)
  price : JsPrice
  currency : Option String
  totalDuration : JsDuration
  url : Option String
  bookingUrl : Option String
  baggageIncluded : Option Bool
  baggageAllowance : Option String
  refundable : Option Bool
deriving DecidableEq, Repr

/-- `NormalizedFlight`. -/
structure NormalizedFlight where
  id : String
  segments : List Segment
  price : FlightPrice
  totalDuration : ℚ
  layovers : List Layover
  source : String
  bookingUrl : String
  baggage : Baggage
  refundable : Bool
  lastUpdated : String
deriving DecidableEq, Repr

/-- `DataNormalizer.calculateTotalDuration`: parse `data.totalDuration` when
truthy, else the placeholder `0`. -/
def calculateTotalDuration (data : RawFlight) : Except String ℚ :=
  if jsTruthyDur data.totalDuration then parseDuration data.totalDuration
  else .ok 0

/-- `DataNormalizer.extractLayovers` — a placeholder returning `[]` in the
source. -/
def extractLayovers (_data : RawFlight) : List Layover := []

/-- `DataNormalizer.extractBaggage`. -/
def extractBaggage (data : RawFlight) : Baggage :=
  { included := data.baggageIncluded.getD false
    allowance := data.baggageAllowance }

/-- `DataNormalizer.normalizeFlight`.  `source` is the adapter tag; `rng` is
the value of `Math.random().toString(36)` used when the record carries no
`id`; `now` is `new Date().toISOString()`. -/
def normalizeFlight (data : RawFlight) (source rng now : String) :
    Except String NormalizedFlight :=
  match normalizeSegments (jsOrArr data.segments data.flights) with
  | .error e => .error e
  | .ok segs =>
  match calculateTotalDuration data with
  | .error e => .error e
  | .ok totalDur => .ok {
    id := source ++ "-" ++ jsOrS data.id rng
    segments := segs
    price := normalizePrice data.price data.currency
    totalDuration := totalDur
    layovers := extractLayovers data
    source := source
    bookingUrl := jsOrS data.url (jsOrS data.bookingUrl "#")
    baggage := extractBaggage data
    refundable := data.refundable.getD false
    lastUpdated := now }

/-- The object form of a raw hotel `location`. -/
structure RawLocation where
  address? : Option String
  city? : Option String
  country? : Option String
  coordinates? : Option (ℚ × ℚ)
deriving DecidableEq, Repr

/-- A raw hotel room entry. -/
structure RawRoom where
  name : Option String
  type : Option String
  price : Option ℚ
  available : Option Bool
deriving DecidableEq, Repr

/-- The raw hotel record as `normalizeHotel` reads it. -/
structure RawHotel where
  id : Option String
  name : Option String
  hotelName : Option String
  address : Option String
  city : Option String
  country : Option String
  location : Option RawLocation
  coordinates : Option (ℚ × ℚ)
  price : JsPrice
  currency : Option String
  rating : Option ℚ
  stars : Option ℚ
  reviews : Option ℚ
  reviewCount : Option ℚ
  ratingSource : Option String
  amenities : Option (List String)
  rooms : Option (List RawRoom)
  roomTypes : Option (List RawRoom)
  cancellationPolicy : Option String
  firstTimeDeal : Option Bool
  discount : Option ℤ
  specialDeals : Option (List String)
  url : Option String
  bookingUrl : Option String
  images : Option (List String)
deriving DecidableEq, Repr

/-- `NormalizedHotel['location']`. -/
structure HotelLocation where
  address : String
  city : String
  country : String
  coordinates : Option (ℚ × ℚ)
deriving DecidableEq, Repr

/-- `NormalizedHotel['rating']`. -/
structure HotelRating where
  value : ℚ
  max : ℚ
  reviews : ℚ
  source : String
deriving DecidableEq, Repr

/-- A normalized room type. -/
structure RoomType where
  name : String
  price : ℚ
  available : Bool
deriving DecidableEq, Repr

/-- The tag of a special offer. -/
inductive OfferType where
  | firstTime
  | discount
  | package
  | loyalty
deriving DecidableEq, Repr

/-- A normalized special offer. -/
structure SpecialOffer where
  type : OfferType
  description : String
  discount : Option ℤ
deriving DecidableEq, Repr

/-- `NormalizedHotel`. -/
structure NormalizedHotel where
  id : String
  name : String
  location : HotelLocation
  price : HotelPrice
  rating : HotelRating
  amenities : List String
  roomTypes : List RoomType
  cancellationPolicy : String
  specialOffers : List SpecialOffer
  source : String
  bookingUrl : String
  images : List String
  lastUpdated : String
deriving DecidableEq, Repr

/-- `DataNormalizer.normalizeRoomTypes`. -/
def normalizeRoomTypes (rooms : List RawRoom) : List RoomType :=
  rooms.map fun room =>
    { name := jsOrS room.name (jsOrS room.type "")
      price := jsOrQ room.price 0
      available := room.available ≠ some false }

/-- `DataNormalizer.extractSpecialOffers`: a first-time entry when
`data.firstTimeDeal` is truthy, a discount entry when `data.discount` is
truthy, then one entry per matching `specialDeals` string. -/
def extractSpecialOffers (data : RawHotel) : List SpecialOffer :=
  (if data.firstTimeDeal.getD false then
    [{ type := .firstTime, description := "First-time customer deal", discount := none }]
  else [])
  ++ (match data.discount with
      | some d =>
        if d = 0 then []
        else [{ type := .discount, description := toString d ++ "% off", discount := some d }]
      | none => [])
  ++ (match data.specialDeals with
      | some deals =>
        deals.foldl (fun acc deal =>
          if strIncludes (strToLower deal) "first" then
            acc ++ [{ type := .firstTime, description := deal, discount := none }]
          else if strIncludes (strToLower deal) "discount" || strIncludes deal "%" then
            acc ++ [{ type := .discount, description := deal, discount := none }]
          else acc) []
      | none => [])

/-- `DataNormalizer.normalizeHotel` (total: no throwing sub-expression). -/
def normalizeHotel (data : RawHotel) (source rng now : String) : NormalizedHotel :=
  { id := source ++ "-" ++ jsOrS data.id rng
    name := jsOrS data.name (jsOrS data.hotelName "")
    location := {
      address := jsOrS data.address (jsOrS (data.location.bind (fun l => l.address?)) "")
      city := jsOrS data.city (jsOrS (data.location.bind (fun l => l.city?)) "")
      country := jsOrS data.country (jsOrS (data.location.bind (fun l => l.country?)) "")
      coordinates := data.coordinates.orElse fun _ => data.location.bind (fun l => l.coordinates?) }
    price := normalizeHotelPrice data.price data.currency
    rating := {
      value := jsOrQ data.rating (jsOrQ data.stars 0)
      max := 5
      reviews := jsOrQ data.reviews (jsOrQ data.reviewCount 0)
      source := jsOrS data.ratingSource source }
    amenities := data.amenities.getD []
    roomTypes := normalizeRoomTypes (jsOrArr data.rooms data.roomTypes)
    cancellationPolicy := jsOrS data.cancellationPolicy "Check booking site"
    specialOffers := extractSpecialOffers data
    source := source
    bookingUrl := jsOrS data.url (jsOrS data.bookingUrl "#")
    images := data.images.getD []
    lastUpdated := now }

/-- The raw transport record as `normalizeTransport` reads it. -/
structure RawTransport where
  id : Option String
  type : Option String
  fromCode : Option String
  fromName : Option String
  «from» : Option String
  fromCity : Option String
  toCode : Option String
  toName : Option String
  «to» : Option String
  toCity : Option String
  operator : Option String
  company : Option String
  departure : Option String
  departureTime : Option String
  departureTimezone : Option String
  arrival : Option String
  arrivalTime : Option String
  arrivalTimezone : Option String
  duration : JsDuration
  price : JsPrice
  currency : Option String
  url : Option String
  bookingUrl : Option String
  amenities : Option (List String)
deriving DecidableEq, Repr

/-- `NormalizedTransport` (its `price` is produced by `normalizePrice`, so it
carries the same shape as a flight price at runtime). -/
structure NormalizedTransport where
  id : String
  type : String
  «from» : Endpoint
  «to» : Endpoint
  operator : String
  departure : DateTimeTz
  arrival : DateTimeTz
  duration : ℚ
  price : FlightPrice
  source : String
  bookingUrl : String
  amenities : List String
  lastUpdated : String
deriving DecidableEq, Repr

/-- `DataNormalizer.normalizeTransport`: the embedded `parseDuration` call
throws when `data.duration` is absent, failing the whole record. -/
def normalizeTransport (data : RawTransport) (source rng now : String) :
    Except String NormalizedTransport :=
  match parseDuration data.duration with
  | .error e => .error e
  | .ok dur => .ok {
    id := source ++ "-" ++ jsOrS data.id rng
    type := jsOrS data.type "bus"
    «from» := {
      code := jsOrS data.fromCode ""
      name := jsOrS data.fromName (jsOrS data.«from» "")
      city := jsOrS data.fromCity "" }
    «to» := {
      code := jsOrS data.toCode ""
      name := jsOrS data.toName (jsOrS data.«to» "")
      city := jsOrS data.toCity "" }
    operator := jsOrS data.operator (jsOrS data.company "")
    departure := {
      datetime := jsOrS data.departure (jsOrS data.departureTime "")
      timezone := jsOrS data.departureTimezone "UTC" }
    arrival := {
      datetime := jsOrS data.arrival (jsOrS data.arrivalTime "")
      timezone := jsOrS data.arrivalTimezone "UTC" }
    duration := dur
    price := normalizePrice data.price data.currency
    source := source
    bookingUrl := jsOrS data.url (jsOrS data.bookingUrl "#")
    amenities := data.amenities.getD []
    lastUpdated := now }

/-! ## The duck-typed views `generateMergeKey` takes of normalized offers -/

/-- `NormalizedFlight` has no top-level `from` / `to` / `departure` fields
(its route data lives inside `segments`), so `generateMergeKey` reads
`undefined` three times. -/
def NormalizedFlight.mergeView (_f : NormalizedFlight) : MergeKeyView :=
  { from? := none, to? := none, departure? := none }

/-- `NormalizedHotel` likewise has none of the three fields. -/
def NormalizedHotel.mergeView (_h : NormalizedHotel) : MergeKeyView :=
  { from? := none, to? := none, departure? := none }

/-- `NormalizedTransport` has all three fields, but as objects; the template
literal stringifies each to `"[object Object]"`. -/
def NormalizedTransport.mergeView (_t : NormalizedTransport) : MergeKeyView :=
  { from? := some "[object Object]"
    to? := some "[object Object]"
    departure? := some "[object Object]" }

/-- `mergeDuplicates` at `NormalizedFlight` (as `BookingAggregator.mergeAll`
invokes it). -/
def mergeDuplicatesFlights : List NormalizedFlight → List NormalizedFlight :=
  mergeDuplicates NormalizedFlight.mergeView (fun f => f.price.amount)

/-- `mergeDuplicates` at `NormalizedHotel`. -/
def mergeDuplicatesHotels : List NormalizedHotel → List NormalizedHotel :=
  mergeDuplicates NormalizedHotel.mergeView (fun h => h.price.amount)

/-- `mergeDuplicates` at `NormalizedTransport`. -/
def mergeDuplicatesTransport : List NormalizedTransport → List NormalizedTransport :=
  mergeDuplicates NormalizedTransport.mergeView (fun t => t.price.amount)

/-! ## `BookingAggregator` (travelIntelligence.ts) -/

/-- `BookingQuery['type']`. -/
inductive QType where
  | flight
  | hotel
  | bus
  | train
  | ferry
  | experience
  | all
deriving DecidableEq, Repr

/-- String form of a query type, as it appears in the query object. -/
def QType.toStr : QType → String
  | .flight => "flight"
  | .hotel => "hotel"
  | .bus => "bus"
  | .train => "train"
  | .ferry => "ferry"
  | .experience => "experience"
  | .all => "all"

/-- `BookingQuery['budget']`. -/
structure Budget where
  min? : Option ℤ
  max? : Option ℤ
  currency : String
deriving DecidableEq, Repr

/-- `BookingQuery`. -/
structure BookingQuery where
  type : QType
  from? : Option String
  «to» : String
  date? : Option String
  returnDate? : Option String
  passengers? : Option ℕ
  flexible? : Option Bool
  budget? : Option Budget
deriving DecidableEq, Repr

/-- A record sitting in one of the (dynamically typed) result slots of
`searchAllSources`: the flight slot holds `FlightRoute`s, the hotel slot
`HotelDeal`s, the transport slot raw transport records (in fact always
empty), the experience slot `Experience`s — except that the slots are filled
by fixed index, see `searchAllSources`. -/
inductive RawRecord where
  | flight (r : FlightRoute)
  | hotel (h : HotelDeal)
  | transport (t : RawTransport)
  | experience (e : Experience)
deriving DecidableEq, Repr

/-- The object `searchAllSources` returns. -/
structure RawResults where
  flights : List RawRecord
  hotels : List RawRecord
  transport : List RawRecord
  experiences : List RawRecord
deriving DecidableEq, Repr

/-- `results[i]?.status === 'fulfilled' ? results[i].value : []`: the settled
outcome at index `i`, or `[]` when the index is out of range or the promise
rejected. -/
def settleSlot (searches : List (Except String (List RawRecord))) (i : ℕ) :
    List RawRecord :=
  match searches.get? i with
  | some (.ok v) => v
  | _ => []

/-- `BookingAggregator.searchAllSources` (lines 301–337): the `searches`
array is built *conditionally* from `query.type` (a flight search is pushed
only when `query.from` is truthy), every search is settled with
`Promise.allSettled`, and the four result fields are then read from the
*fixed* indices 0–3 of the settled array.  The three kind-level searches are
modelled by their settled outcomes (`flightOutcome` stands for
`realAggregator.searchFlights(...)`, etc.); the bus/train/ferry slot is the
literal `Promise.resolve([])` of the source. -/
def searchAllSources (q : BookingQuery) (flightOutcome : Outcome FlightRoute)
    (hotelOutcome : Outcome HotelDeal) (expOutcome : Outcome Experience) :
    RawResults :=
  let searches : List (Except String (List RawRecord)) :=
    (if (q.type = .flight ∨ q.type = .all) ∧ jsOrS q.from? "" ≠ "" then
      [flightOutcome.map (fun l => l.map RawRecord.flight)]
    else [])
    ++ (if q.type = .hotel ∨ q.type = .all then
      [hotelOutcome.map (fun l => l.map RawRecord.hotel)]
    else [])
    ++ (if q.type = .bus ∨ q.type = .train ∨ q.type = .ferry ∨ q.type = .all then
      [Except.ok []]
    else [])
    ++ (if q.type = .experience ∨ q.type = .all then
      [expOutcome.map (fun l => l.map RawRecord.experience)]
    else [])
  { flights := settleSlot searches 0
    hotels := settleSlot searches 1
    transport := settleSlot searches 2
    experiences := settleSlot searches 3 }

/-! ## The result cache of `BookingAggregator` -/

/-- A cache entry: `{ data, timestamp: Date.now() }`. -/
structure CacheEntry (α : Type) where
  data : α
  timestamp : ℤ
deriving DecidableEq, Repr

/-- `private cacheTTL = 60 * 60 * 1000; // 1 hour` (milliseconds). -/
def cacheTTL : ℤ := 60 * 60 * 1000

/-- The `Map<string, {data, timestamp}>` held by the aggregator, as an
association list in insertion order. -/
abbrev Cache (α : Type) := List (String × CacheEntry α)

/-- `Map.prototype.get`. -/
def cacheGet {α : Type} (cache : Cache α) (k : String) : Option (CacheEntry α) :=
  (cache.find? (fun p => p.1 = k)).map (fun p => p.2)

/-- `Map.prototype.set`: overwrite the entry in place, or append a new one. -/
def cacheSet {α : Type} : Cache α → String → CacheEntry α → Cache α
  | [], k, e => [(k, e)]
  | (k', e') :: rest, k, e =>
    if k' = k then (k, e) :: rest else (k', e') :: cacheSet rest k e

/-- The freshness read `search` performs: the cached data only if an entry
exists and `now - cached.timestamp < cacheTTL`; stale or missing entries act
as a miss (lazy expiry — nothing is deleted). -/
def cacheGetFresh {α : Type} (cache : Cache α) (k : String) (now : ℤ) : Option α :=
  match cacheGet cache k with
  | some cached => if now - cached.timestamp < cacheTTL then some cached.data else none
  | none => none

/-- A JSON string literal. -/
def jsonStr (s : String) : String := "\x22" ++ s ++ "\x22"

/-- An optional string field rendered inside `JSON.stringify` output
(omitted when `undefined`). -/
def jsonFieldS (name : String) : Option String → String
  | some v => "," ++ jsonStr name ++ ":" ++ jsonStr v
  | none => ""

/-- An optional integer field rendered inside `JSON.stringify` output. -/
def jsonFieldZ (name : String) : Option ℤ → String
  | some v => "," ++ jsonStr name ++ ":" ++ toString v
  | none => ""

/-- An optional natural-number field rendered inside `JSON.stringify`
output. -/
def jsonFieldN (name : String) : Option ℕ → String
  | some v => "," ++ jsonStr name ++ ":" ++ toString v
  | none => ""

/-- An optional boolean field rendered inside `JSON.stringify` output. -/
def jsonFieldB (name : String) : Option Bool → String
  | some true => "," ++ jsonStr name ++ ":true"
  | some false => "," ++ jsonStr name ++ ":false"
  | none => ""

/-- The optional `budget` sub-object rendered inside `JSON.stringify`
output. -/
def jsonFieldBudget : Option Budget → String
  | some b =>
    "," ++ jsonStr "budget" ++ ":\x7b"
    ++ (match b.min? with
        | some v => jsonStr "min" ++ ":" ++ toString v ++ "," | none => "")
    ++ (match b.max? with
        | some v => jsonStr "max" ++ ":" ++ toString v ++ "," | none => "")
    ++ jsonStr "currency" ++ ":" ++ jsonStr b.currency ++ "\x7d"
  | none => ""

/-- `BookingAggregator.generateCacheKey`: `JSON.stringify(query)`, rendered
with the fields in the declaration order of `BookingQuery` and `undefined`
fields omitted, as `JSON.stringify` does. -/
def generateCacheKey (q : BookingQuery) : String :=
  "\x7b" ++ jsonStr "type" ++ ":" ++ jsonStr q.type.toStr
  ++ jsonFieldS "from" q.from?
  ++ "," ++ jsonStr "to" ++ ":" ++ jsonStr q.«to»
  ++ jsonFieldS "date" q.date?
  ++ jsonFieldS "returnDate" q.returnDate?
  ++ jsonFieldN "passengers" q.passengers?
  ++ jsonFieldB "flexible" q.flexible?
  ++ jsonFieldBudget q.budget?
  ++ "\x7d"

/-- The caching discipline of `BookingAggregator.search` (lines 263–298): a
fresh cache entry is returned on a hit (`now - timestamp < cacheTTL`);
otherwise the aggregation pipeline runs (its recomputed `AggregatedResults`
value is abstracted as the `fresh` parameter, whose value does not influence
the caching behaviour; the pipeline stages `searchAllSources`,
normalization, `mergeDuplicates` and deal ranking are embedded separately)
and the result is stored under the query's key, overwriting any stale
entry.  Returns the result together with the updated cache. -/
def searchCached {α : Type} (cache : Cache α) (q : BookingQuery) (fresh : α)
    (now : ℤ) : α × Cache α :=
  let cacheKey := generateCacheKey q
  match cacheGet cache cacheKey with
  | some cached =>
    if now - cached.timestamp < cacheTTL then (cached.data, cache)
    else (fresh, cacheSet cache cacheKey { data := fresh, timestamp := now })
  | none => (fresh, cacheSet cache cacheKey { data := fresh, timestamp := now })

/-! ## Concrete test records -/

/-- A hotel deal used as a provider record in concrete runs. -/
def grandPalaceDeal : HotelDeal :=
  { name := "Grand Palace Hotel"
    location := "Bangkok"
    price := 120
    currency := "USD"
    rating := 4.5
    reviews := 2300
    amenities := ["wifi", "pool"]
    cancellationPolicy := "free"
    specialDeals := []
    source := "agoda"
    url := "https://agoda.example/gp" }

/-- A hotel-only query (destination Bangkok). -/
def hotelOnlyQuery : BookingQuery :=
  { type := .hotel
    from? := none
    «to» := "Bangkok"
    date? := some "2025-03-10"
    returnDate? := some "2025-03-12"
    passengers? := some 2
    flexible? := none
    budget? := none }

/-- A flight query with no origin. -/
def flightNoOriginQuery (dest : String) : BookingQuery :=
  { type := .flight
    from? := none
    «to» := dest
    date? := some "2025-03-10"
    returnDate? := none
    passengers? := some 1
    flexible? := none
    budget? := none }

/-- A hotel query with an *empty* destination (malformed per the data-model
invariant). -/
def emptyDestQuery : BookingQuery :=
  { hotelOnlyQuery with «to» := "" }

/-- Helper: a normalized hotel with the given name, price, source and
`lastUpdated`, other fields fixed. -/
def mkNormHotel (name : String) (amount : ℚ) (source lastUpdated : String) :
    NormalizedHotel :=
  { id := source ++ "-h1"
    name := name
    location := { address := "1 Main St", city := "Bangkok", country := "TH", coordinates := none }
    price := { amount := amount, currency := "USD", perNight := true
               originalCurrency := none, exchangeRate := none }
    rating := { value := 4, max := 5, reviews := 100, source := source }
    amenities := []
    roomTypes := []
    cancellationPolicy := "Check booking site"
    specialOffers := []
    source := source
    bookingUrl := "#"
    images := []
    lastUpdated := lastUpdated }

/-- First member of the C4 tie group: price 100, the *later* `lastUpdated`,
the lexically *larger* source name — yet first in input order. -/
def hotelZebra : NormalizedHotel := mkNormHotel "Grand Palace Hotel" 100 "zebra" "2024-06-02T00:00:00Z"

/-- Second member of the C4 tie group: same price 100, strictly earlier
`lastUpdated`, lexically smaller source name. -/
def hotelAlpha : NormalizedHotel := mkNormHotel "Grand Palace Hotel" 100 "alpha" "2024-06-01T00:00:00Z"

/-- Helper: a normalized ATH→BKK flight with one segment departing at the
given datetime, the given price and source. -/
def mkAthBkkFlight (dep : String) (amount : ℚ) (source : String) :
    NormalizedFlight :=
  { id := source ++ "-f1"
    segments := [{
      «from» := { code := "ATH", name := "Athens Intl", city := "Athens" }
      «to» := { code := "BKK", name := "Suvarnabhumi", city := "Bangkok" }
      airline := "TG"
      flightNumber := "TG945"
      departure := { datetime := dep, timezone := "UTC" }
      arrival := { datetime := dep, timezone := "UTC" }
      duration := 600
      aircraft := none }]
    price := { amount := amount, currency := "EUR", originalCurrency := none, exchangeRate := none }
    totalDuration := 600
    layovers := []
    source := source
    bookingUrl := "#"
    baggage := { included := false, allowance := none }
    refundable := false
    lastUpdated := "2025-03-01T00:00:00Z" }

/-- ATH→BKK on 2025-03-10, price 500. -/
def flightAth500 : NormalizedFlight := mkAthBkkFlight "2025-03-10T08:00:00Z" 500 "skyscanner"

/-- ATH→BKK on the same calendar date, price 480. -/
def flightAth480 : NormalizedFlight := mkAthBkkFlight "2025-03-10T14:00:00Z" 480 "kiwi"

/-- ATH→BKK on a *different* date, price 600 — per the spec it must form its
own merge group. -/
def flightAth600 : NormalizedFlight := mkAthBkkFlight "2025-04-02T08:00:00Z" 600 "momondo"

/-- Helper: a raw hotel deal with the given name, price and source. -/
def mkHotelDeal (name : String) (price : ℚ) (source : String) : HotelDeal :=
  { name := name
    location := "Bangkok"
    price := price
    currency := "USD"
    rating := 4
    reviews := 100
    amenities := []
    cancellationPolicy := "free"
    specialDeals := []
    source := source
    url := "#" }

/-- "Grand Palace Hotel" at price 150 (spec scenario). -/
def grand150 : HotelDeal := mkHotelDeal "Grand Palace Hotel" 150 "booking"

/-- "Grand Palace Hotel" at price 120 (spec scenario). -/
def grand120 : HotelDeal := mkHotelDeal "Grand Palace Hotel" 120 "agoda"

/-- "Grand Palace Hotel" at price 100 (spec scenario). -/
def grand100 : HotelDeal := mkHotelDeal "Grand Palace Hotel" 100 "trip"

/-- A zero-priced deal (e.g. a record whose missing price defaulted to 0). -/
def zeroDealA : HotelDeal := mkHotelDeal "Freebie Hostel" 0 "agoda"

/-- A second zero-priced deal for the same hotel from another source. -/
def zeroDealB : HotelDeal := mkHotelDeal "Freebie Hostel" 0 "booking"

/-- Two ordinary distinct hotels for the partial-failure scenario. -/
def dealAlphaInn : HotelDeal := mkHotelDeal "Alpha Inn" 80 "agoda"

/-- Second ordinary hotel for the partial-failure scenario. -/
def dealBetaLodge : HotelDeal := mkHotelDeal "Beta Lodge" 120 "booking"

/-- A raw transport record whose `duration` field is absent. -/
def rawTransportNoDuration : RawTransport :=
  { id := some "bus-17"
    type := some "bus"
    fromCode := none, fromName := some "Mo Chit", «from» := none, fromCity := some "Bangkok"
    toCode := none, toName := some "Udon Thani", «to» := none, toCity := some "Udon Thani"
    operator := some "BKS", company := none
    departure := some "2025-03-10T09:00:00Z", departureTime := none, departureTimezone := none
    arrival := some "2025-03-10T17:00:00Z", arrivalTime := none, arrivalTimezone := none
    duration := .undef
    price := .num 25
    currency := some "THB"
    url := none, bookingUrl := none
    amenities := none }

/-- A raw flight record carrying no `id` (so normalization generates one
from the random suffix). -/
def rawFlightNoId : RawFlight :=
  { id := none
    segments := some []
    flights := none
    price := .num 500
    currency := some "EUR"
    totalDuration := .str "10h 0m"
    url := some "https://sky.example/f"
    bookingUrl := none
    baggageIncluded := some true
    baggageAllowance := some "23kg"
    refundable := none }

/-- Erase the two volatile fields (`id`, which may embed the random suffix,
and `lastUpdated`, which embeds the clock) of a normalized flight. -/
def stripVolatileF (o : NormalizedFlight) : NormalizedFlight :=
  { o with id := "", lastUpdated := "" }

/-- Erase the two volatile fields of a normalized hotel. -/
def stripVolatileH (o : NormalizedHotel) : NormalizedHotel :=
  { o with id := "", lastUpdated := "" }

/-! ## Lemmas: grouping in first-appearance order -/

theorem keysOf_insertGrouped {T : Type} (k : String) (x : T)
    (acc : List (String × List T)) :
    (insertGrouped k x acc).map Prod.fst =
      if k ∈ acc.map Prod.fst then acc.map Prod.fst
      else acc.map Prod.fst ++ [k] := by
  induction acc with
  | nil => simp [insertGrouped]
  | cons p rest ih =>
    obtain ⟨k', g⟩ := p
    by_cases h : k' = k
    · subst h
      simp [insertGrouped]
    · have h' : ¬k = k' := fun hh => h hh.symm
      simp only [insertGrouped, if_neg h, List.map_cons, ih, List.mem_cons, h',
        false_or]
      by_cases hm : k ∈ rest.map Prod.fst
      · simp [hm]
      · simp [hm]

theorem insertGrouped_of_not_mem {T : Type} {k : String} (x : T)
    {acc : List (String × List T)} (h : k ∉ acc.map Prod.fst) :
    insertGrouped k x acc = acc ++ [(k, [x])] := by
  induction acc with
  | nil => simp [insertGrouped]
  | cons p rest ih =>
    obtain ⟨k', g⟩ := p
    simp only [List.map_cons, List.mem_cons] at h
    push_neg at h
    have h1 : ¬k' = k := fun hh => h.1 hh.symm
    simp [insertGrouped, h1, ih h.2]

theorem insertGrouped_preserves {T : Type} (key : T → String) (x : T)
    (acc : List (String × List T))
    (hnd : (acc.map Prod.fst).Nodup)
    (hg : ∀ p ∈ acc, p.2 ≠ [] ∧ ∀ y ∈ p.2, key y = p.1) :
    ((insertGrouped (key x) x acc).map Prod.fst).Nodup ∧
      ∀ p ∈ insertGrouped (key x) x acc, p.2 ≠ [] ∧ ∀ y ∈ p.2, key y = p.1 := by
  induction acc with
  | nil =>
    refine ⟨by simp [insertGrouped], ?_⟩
    intro p hp
    simp only [insertGrouped, List.mem_singleton] at hp
    subst hp
    exact ⟨by simp, by simp⟩
  | cons q rest ih =>
    obtain ⟨k', g⟩ := q
    simp only [List.map_cons, List.nodup_cons] at hnd
    have hgrest : ∀ p ∈ rest, p.2 ≠ [] ∧ ∀ y ∈ p.2, key y = p.1 :=
      fun p hp => hg p (List.mem_cons_of_mem _ hp)
    have hghead := hg (k', g) (List.mem_cons_self _ _)
    by_cases h : k' = key x
    · subst h
      simp only [insertGrouped, if_pos rfl]
      refine ⟨by simpa using hnd, ?_⟩
      intro p hp
      rcases List.mem_cons.mp hp with rfl | hp
      · refine ⟨by simp, ?_⟩
        intro y hy
        rcases List.mem_append.mp hy with hy | hy
        · exact hghead.2 y hy
        · simp only [List.mem_singleton] at hy
          subst hy
          rfl
      · exact hgrest p hp
    · have h1 : ¬k' = key x := h
      have ihr := ih hnd.2 hgrest
      simp only [insertGrouped, if_neg h1]
      constructor
      · simp only [List.map_cons, List.nodup_cons]
        refine ⟨?_, ihr.1⟩
        rw [keysOf_insertGrouped]
        by_cases hm : key x ∈ rest.map Prod.fst
        · simpa [hm] using hnd.1
        · rw [if_neg hm]
          simp only [List.mem_append, List.mem_singleton]
          push_neg
          exact ⟨hnd.1, h1⟩
      · intro p hp
        rcases List.mem_cons.mp hp with rfl | hp
        · exact hghead
        · exact ihr.2 p hp

theorem groupPairs_good {T : Type} (key : T → String) (rs : List T) :
    ((groupPairs key rs).map Prod.fst).Nodup ∧
      ∀ p ∈ groupPairs key rs, p.2 ≠ [] ∧ ∀ y ∈ p.2, key y = p.1 := by
  suffices h : ∀ acc, (acc.map Prod.fst).Nodup →
      (∀ p ∈ acc, p.2 ≠ [] ∧ ∀ y ∈ p.2, key y = p.1) →
      (((rs.foldl (fun a x => insertGrouped (key x) x a) acc).map Prod.fst).Nodup ∧
        ∀ p ∈ rs.foldl (fun a x => insertGrouped (key x) x a) acc,
          p.2 ≠ [] ∧ ∀ y ∈ p.2, key y = p.1) by
    exact h [] (by simp) (by simp)
  induction rs with
  | nil => intro acc h1 h2; exact ⟨h1, h2⟩
  | cons x xs ih =>
    intro acc h1 h2
    have h3 := insertGrouped_preserves key x acc h1 h2
    exact ih _ h3.1 h3.2

theorem groupPairs_of_nodup_keys {T : Type} (key : T → String) :
    ∀ (rs : List T) (acc : List (String × List T)),
      (∀ x ∈ rs, key x ∉ acc.map Prod.fst) → (rs.map key).Nodup →
      rs.foldl (fun a x => insertGrouped (key x) x a) acc =
        acc ++ rs.map (fun x => (key x, [x])) := by
  intro rs
  induction rs with
  | nil => intro acc _ _; simp
  | cons x xs ih =>
    intro acc hnm hnd
    simp only [List.map_cons, List.nodup_cons] at hnd
    simp only [List.foldl_cons]
    rw [insertGrouped_of_not_mem x (hnm x (List.mem_cons_self _ _))]
    rw [ih (acc ++ [(key x, [x])]) ?h1 hnd.2]
    · simp
    case h1 =>
      intro y hy
      simp only [List.map_append, List.mem_append, List.map_cons,
        List.map_nil, List.mem_singleton]
      push_neg
      refine ⟨hnm y (List.mem_cons_of_mem _ hy), ?_⟩
      intro hh
      exact hnd.1 (hh ▸ List.mem_map_of_mem key hy)

/-! ## Lemmas: the reduce-min representative -/

theorem foldl_min_mem {T : Type} (pr : T → ℚ) (xs : List T) (b : T) :
    xs.foldl (fun best cur => if pr cur < pr best then cur else best) b ∈ b :: xs := by
  induction xs generalizing b with
  | nil => simp
  | cons c cs ih =>
    simp only [List.foldl_cons]
    rcases List.mem_cons.mp (ih (if pr c < pr b then c else b)) with h1 | h1
    · rw [h1]
      by_cases hc : pr c < pr b <;> simp [hc]
    · exact List.mem_cons_of_mem _ (List.mem_cons_of_mem _ h1)

theorem foldl_min_price {T : Type} (pr : T → ℚ) (xs : List T) (b : T) :
    pr (xs.foldl (fun best cur => if pr cur < pr best then cur else best) b) =
      (xs.map pr).foldl min (pr b) := by
  induction xs generalizing b with
  | nil => rfl
  | cons c cs ih =>
    simp only [List.foldl_cons, List.map_cons]
    rw [ih]
    congr 1
    by_cases hc : pr c < pr b
    · simp [hc, min_eq_right (le_of_lt hc)]
    · simp [hc, min_eq_left (le_of_not_lt hc)]

theorem foldl_min_le_init (l : List ℚ) (a : ℚ) : l.foldl min a ≤ a := by
  induction l generalizing a with
  | nil => simp
  | cons x xs ih => exact le_trans (ih (min a x)) (min_le_left a x)

theorem foldl_min_le_mem (l : List ℚ) (a : ℚ) : ∀ x ∈ l, l.foldl min a ≤ x := by
  induction l generalizing a with
  | nil => simp
  | cons y ys ih =>
    intro x hx
    rcases List.mem_cons.mp hx with rfl | hx
    · exact le_trans (foldl_min_le_init ys (min a x)) (min_le_right a x)
    · exact ih (min a y) x hx

theorem foldl_max_ge_init (l : List ℚ) (a : ℚ) : a ≤ l.foldl max a := by
  induction l generalizing a with
  | nil => simp
  | cons x xs ih => exact le_trans (le_max_left a x) (ih (max a x))

theorem foldl_max_ge_mem (l : List ℚ) (a : ℚ) : ∀ x ∈ l, x ≤ l.foldl max a := by
  induction l generalizing a with
  | nil => simp
  | cons y ys ih =>
    intro x hx
    rcases List.mem_cons.mp hx with rfl | hx
    · exact le_trans (le_max_right a x) (foldl_max_ge_init ys (max a x))
    · exact ih (max a y) x hx

theorem foldl_min_mem_q (l : List ℚ) (a : ℚ) : l.foldl min a ∈ a :: l := by
  induction l generalizing a with
  | nil => simp
  | cons x xs ih =>
    simp only [List.foldl_cons]
    rcases List.mem_cons.mp (ih (min a x)) with h1 | h1
    · rw [h1]
      rcases min_choice a x with h2 | h2 <;> rw [h2]
      · exact List.mem_cons_self _ _
      · exact List.mem_cons_of_mem _ (List.mem_cons_self _ _)
    · exact List.mem_cons_of_mem _ (List.mem_cons_of_mem _ h1)

theorem pickRepresentative_cons {T : Type} (pr : T → ℚ) (x : T) (xs : List T) :
    pickRepresentative pr (x :: xs) =
      some (xs.foldl (fun best cur => if pr cur < pr best then cur else best) x) := by
  rcases xs with _ | ⟨y, ys⟩
  · rfl
  · simp [pickRepresentative, reduceMin]

theorem foldl_min_first {T : Type} (pr : T → ℚ) (xs : List T) (b : T) :
    ((b :: xs).find? fun y =>
        decide (pr y ≤ pr (xs.foldl (fun best cur => if pr cur < pr best then cur else best) b))) =
      some (xs.foldl (fun best cur => if pr cur < pr best then cur else best) b) := by
  induction xs generalizing b with
  | nil => simp [List.find?]
  | cons c cs ih =>
    by_cases hc : pr c < pr b
    · have hstep : (c :: cs).foldl (fun best cur => if pr cur < pr best then cur else best) b =
          cs.foldl (fun best cur => if pr cur < pr best then cur else best) c := by
        simp [List.foldl_cons, if_pos hc]
      rw [hstep]
      have hle : pr (cs.foldl (fun best cur => if pr cur < pr best then cur else best) c) ≤ pr c := by
        have h0 := foldl_min_le_init (cs.map pr) (pr c)
        rw [← foldl_min_price pr cs c] at h0
        exact h0
      have hb : ¬pr b ≤ pr (cs.foldl (fun best cur => if pr cur < pr best then cur else best) c) :=
        not_le.mpr (lt_of_le_of_lt hle hc)
      rw [List.find?_cons_of_neg _ (by simpa using hb)]
      exact ih c
    · have hstep : (c :: cs).foldl (fun best cur => if pr cur < pr best then cur else best) b =
          cs.foldl (fun best cur => if pr cur < pr best then cur else best) b := by
        simp [List.foldl_cons, if_neg hc]
      rw [hstep]
      have hih := ih b
      by_cases hb : pr b ≤ pr (cs.foldl (fun best cur => if pr cur < pr best then cur else best) b)
      · rw [List.find?_cons_of_pos _ (by simpa using hb)] at hih
        have hbm := Option.some.inj hih
        rw [List.find?_cons_of_pos _ (by simpa using hb)]
        exact congrArg some hbm
      · rw [List.find?_cons_of_neg _ (by simpa using hb)] at hih
        have hcnot : ¬pr c ≤ pr (cs.foldl (fun best cur => if pr cur < pr best then cur else best) b) := by
          push_neg at hb ⊢
          exact lt_of_lt_of_le hb (le_of_not_lt hc)
        rw [List.find?_cons_of_neg _ (by simpa using hb),
          List.find?_cons_of_neg _ (by simpa using hcnot)]
        exact hih

theorem pickRepresentative_mem {T : Type} (pr : T → ℚ) :
    ∀ g : List T, g ≠ [] → ∃ m, pickRepresentative pr g = some m ∧ m ∈ g := by
  intro g hg
  match g, hg with
  | x :: xs, _ =>
    exact ⟨xs.foldl (fun best cur => if pr cur < pr best then cur else best) x,
      pickRepresentative_cons pr x xs, foldl_min_mem pr xs x⟩

theorem filterMap_pick_keys {T : Type} (key : T → String) (pr : T → ℚ) :
    ∀ gps : List (String × List T),
      (∀ p ∈ gps, p.2 ≠ [] ∧ ∀ y ∈ p.2, key y = p.1) →
      (gps.filterMap (fun p => pickRepresentative pr p.2)).map key = gps.map Prod.fst := by
  intro gps
  induction gps with
  | nil => intro _; rfl
  | cons p rest ih =>
    intro h
    have hp := h p (List.mem_cons_self _ _)
    obtain ⟨m, hm, hmem⟩ := pickRepresentative_mem pr p.2 hp.1
    have ihr := ih fun q hq => h q (List.mem_cons_of_mem _ hq)
    rw [List.filterMap_cons, hm, List.map_cons, ihr, hp.2 m hmem]
    rfl

theorem filterMap_pick_singletons {T : Type} (key : T → String) (pr : T → ℚ)
    (rs : List T) :
    ((rs.map (fun x => (key x, [x]))).filterMap
        (fun p => pickRepresentative pr p.2)) = rs := by
  induction rs with
  | nil => rfl
  | cons x xs ih =>
    have hstep : ((x :: xs).map (fun x => (key x, [x]))).filterMap
        (fun p => pickRepresentative pr p.2) =
        x :: (xs.map (fun x => (key x, [x]))).filterMap
          (fun p => pickRepresentative pr p.2) := rfl
    rw [hstep, ih]

theorem mergeDuplicates_of_nodup_keys {T : Type} (view : T → MergeKeyView)
    (pr : T → ℚ) (rs : List T)
    (hnd : (rs.map fun x => generateMergeKey (view x)).Nodup) :
    mergeDuplicates view pr rs = rs := by
  show (groupPairs (fun x => generateMergeKey (view x)) rs).filterMap
      (fun p => pickRepresentative pr p.2) = rs
  rw [show groupPairs (fun x => generateMergeKey (view x)) rs =
      rs.map (fun x => ((fun y => generateMergeKey (view y)) x, [x])) from
    groupPairs_of_nodup_keys _ rs [] (by simp) hnd]
  exact filterMap_pick_singletons _ pr rs

theorem cacheGet_cacheSet {α : Type} (cache : Cache α) (k : String)
    (e : CacheEntry α) : cacheGet (cacheSet cache k e) k = some e := by
  induction cache with
  | nil =>
    show cacheGet [(k, e)] k = some e
    unfold cacheGet
    rw [List.find?_cons_of_pos _ (by simp)]
    rfl
  | cons p rest ih =>
    obtain ⟨k', e'⟩ := p
    by_cases h : k' = k
    · subst h
      have hset : cacheSet ((k', e') :: rest) k' e = (k', e) :: rest := by
        unfold cacheSet
        rw [if_pos rfl]
      rw [hset]
      unfold cacheGet
      rw [List.find?_cons_of_pos _ (by simp)]
      rfl
    · simp only [cacheSet, if_neg h]
      unfold cacheGet at ih ⊢
      rw [List.find?_cons_of_neg _ (by simpa using h)]
      exact ih

/-! ## Claim theorems -/

/-- C7: the merge operation is idempotent — for every sequence of offers (of
any offer type, with its duck-typed merge-key view and price projection),
applying `mergeDuplicates` to its own output returns that output unchanged,
element for element and in the same order. -/
theorem C7_merge_idempotent {T : Type} (view : T → MergeKeyView) (pr : T → ℚ)
    (rs : List T) :
    mergeDuplicates view pr (mergeDuplicates view pr rs) = mergeDuplicates view pr rs := by
  have hgood := groupPairs_good (fun x => generateMergeKey (view x)) rs
  have hkeys : (mergeDuplicates view pr rs).map (fun x => generateMergeKey (view x)) =
      (groupPairs (fun x => generateMergeKey (view x)) rs).map Prod.fst :=
    filterMap_pick_keys _ pr _ hgood.2
  have hnd : ((mergeDuplicates view pr rs).map
      (fun x => generateMergeKey (view x))).Nodup := by
    rw [hkeys]
    exact hgood.1
  exact mergeDuplicates_of_nodup_keys view pr _ hnd

/-- C4 counterexample: in a two-member group tied on the minimum price, the
representative kept by `mergeDuplicates` is the *first* member in input
order (`hotelZebra`), even though the other member has a strictly earlier
`lastUpdated` and a lexically smaller source — so the claimed
earliest-`lastUpdated` / source-name tie-break does not hold. -/
theorem C4_tie_break_counterexample :
    mergeDuplicatesHotels [hotelZebra, hotelAlpha] = [hotelZebra] ∧
    hotelAlpha.price.amount = hotelZebra.price.amount ∧
    hotelAlpha.lastUpdated.data < hotelZebra.lastUpdated.data ∧
    hotelAlpha.source.data < hotelZebra.source.data ∧
    hotelZebra ≠ hotelAlpha := by
  refine ⟨rfl, rfl, by decide, by decide, by decide⟩

/-- C4 amended: the representative of every (nonempty) merge group is a
member of minimal `price.amount`, and on ties the choice is deterministic
but falls on the *first* member in input order attaining the minimum (the
strict `<` in the reduce keeps the earlier element), not on the earliest
`lastUpdated` or lexically smallest source. -/
theorem C4_first_occurrence_tie_break {T : Type} (pr : T → ℚ) (x : T)
    (xs : List T) :
    ∃ m, reduceMin pr (x :: xs) = some m ∧ m ∈ x :: xs ∧
      (∀ y ∈ x :: xs, pr m ≤ pr y) ∧
      ((x :: xs).find? fun y => decide (pr y ≤ pr m)) = some m := by
  refine ⟨xs.foldl (fun best cur => if pr cur < pr best then cur else best) x,
    rfl, foldl_min_mem pr xs x, ?_, foldl_min_first pr xs x⟩
  intro y hy
  rw [foldl_min_price pr xs x]
  rcases List.mem_cons.mp hy with rfl | hy
  · exact foldl_min_le_init _ _
  · exact foldl_min_le_mem _ _ _ (List.mem_map_of_mem pr hy)

/-- C5 (evaluating the code at the failing input): `generateMergeKey` reads
the top-level `from` / `to` / `departure` fields, which a `NormalizedFlight`
does not have, so *every* flight gets the same key `"--"` — no lowercased
route, no departure date.  Consequently ATH→BKK flights at 500 and 480 *and*
an ATH→BKK flight on a different calendar date all land in one group, and
the different-date flight disappears instead of forming its own group. -/
theorem C5_merge_key_collapses_flights :
    generateMergeKey (NormalizedFlight.mergeView flightAth500) = "--" ∧
    generateMergeKey (NormalizedFlight.mergeView flightAth600) = "--" ∧
    mergeDuplicatesFlights [flightAth500, flightAth480, flightAth600] =
      [flightAth480] := by
  refine ⟨rfl, rfl, by decide⟩

/-- C2 (evaluating the code at the failing input): for a hotel-only query the
`searches` array contains the hotel search alone, at index 0 — but
`searchAllSources` reads the result fields from fixed indices, so the hotel
records are assigned to `flights` and the `hotels` field comes back
empty. -/
theorem C2_hotel_results_misassigned :
    searchAllSources hotelOnlyQuery (Except.ok []) (Except.ok [grandPalaceDeal])
        (Except.ok []) =
      { flights := [RawRecord.hotel grandPalaceDeal], hotels := []
        transport := [], experiences := [] } := by
  rfl

/-- C1: an adapter failure is never propagated — a rejected outcome anywhere
in the fan-out contributes nothing and leaves the aggregation of the
remaining outcomes unchanged, at the `searchFlights` level, the
`searchHotels` level, and each kind-slot of `searchAllSources` (a rejected
kind-search behaves exactly like one that fulfilled with no records); and in
the concrete partial-failure scenario, one adapter succeeding with two
records while another rejects still yields exactly those two
normalized/merged records.  (All functions are total: no error value escapes
to the caller.) -/
theorem C1_partial_failure_tolerance :
    (∀ (pre post : List (Outcome FlightRoute)) (msg : String) (flexible : Bool)
        (mc : List FlightRoute),
      searchFlights (pre ++ Except.error msg :: post) flexible mc =
        searchFlights (pre ++ post) flexible mc) ∧
    (∀ (pre post : List (Outcome HotelDeal)) (msg : String),
      searchHotels (pre ++ Except.error msg :: post) = searchHotels (pre ++ post)) ∧
    (∀ (q : BookingQuery) (msg : String) (ho : Outcome HotelDeal)
        (eo : Outcome Experience),
      searchAllSources q (Except.error msg) ho eo =
        searchAllSources q (Except.ok []) ho eo) ∧
    (∀ (q : BookingQuery) (msg : String) (fo : Outcome FlightRoute)
        (eo : Outcome Experience),
      searchAllSources q fo (Except.error msg) eo =
        searchAllSources q fo (Except.ok []) eo) ∧
    (∀ (q : BookingQuery) (msg : String) (fo : Outcome FlightRoute)
        (ho : Outcome HotelDeal),
      searchAllSources q fo ho (Except.error msg) =
        searchAllSources q fo ho (Except.ok [])) ∧
    searchHotels [Except.ok [dealAlphaInn, dealBetaLodge], Except.error "provider down"] =
      [{ dealAlphaInn with firstTimeDeal := some false },
        { dealBetaLodge with firstTimeDeal := some false }] := by
  have hcf : ∀ {ρ : Type} (pre post : List (Outcome ρ)) (msg : String),
      collectFulfilled (pre ++ Except.error msg :: post) = collectFulfilled (pre ++ post) := by
    intro ρ pre post msg
    simp only [collectFulfilled, List.foldl_append, List.foldl_cons]
  refine ⟨?_, ?_, ?_, ?_, ?_, ?_⟩
  · intro pre post msg flexible mc
    unfold searchFlights
    rw [hcf]
  · intro pre post msg
    unfold searchHotels
    rw [hcf]
  · intro q msg ho eo
    rcases q with ⟨ty, fr, dst, d, rd, p, fl, b⟩
    cases ty <;>
      first
        | rfl
        | (by_cases hfr : jsOrS fr "" = "" <;>
            simp [searchAllSources, settleSlot, hfr, Except.map])
  · intro q msg fo eo
    rcases q with ⟨ty, fr, dst, d, rd, p, fl, b⟩
    cases ty <;>
      first
        | rfl
        | (by_cases hfr : jsOrS fr "" = "" <;>
            simp [searchAllSources, settleSlot, hfr, Except.map])
  · intro q msg fo ho
    rcases q with ⟨ty, fr, dst, d, rd, p, fl, b⟩
    cases ty <;>
      first
        | rfl
        | (by_cases hfr : jsOrS fr "" = "" <;>
            simp [searchAllSources, settleSlot, hfr, Except.map])
  · decide

/-- C3: the cache contract of `search` — (1) a get immediately after a put
for the same query returns the stored results; (2) once the TTL
(`cacheTTL = 1` hour) has elapsed since the entry's `timestamp`, a get
behaves as a miss; (3) a put for a key that already has an entry always
overwrites it; (4) on a stale entry, `search` recomputes: it returns the
freshly computed results and stores them over the stale entry. -/
theorem C3_cache_ttl_contract :
    (∀ {α : Type} (cache : Cache α) (q : BookingQuery) (v : α) (now : ℤ),
      cacheGetFresh (cacheSet cache (generateCacheKey q) { data := v, timestamp := now })
        (generateCacheKey q) now = some v) ∧
    (∀ {α : Type} (k : String) (v : α) (t : ℤ) (extra : ℕ),
      cacheGetFresh [(k, { data := v, timestamp := t })] k (t + cacheTTL + extra) = none) ∧
    (∀ {α : Type} (cache : Cache α) (k : String) (e : CacheEntry α),
      cacheGet (cacheSet cache k e) k = some e) ∧
    (∀ {α : Type} (q : BookingQuery) (fresh stale : α) (t : ℤ) (extra : ℕ),
      searchCached [(generateCacheKey q, { data := stale, timestamp := t })] q fresh
          (t + cacheTTL + extra) =
        (fresh, [(generateCacheKey q,
          { data := fresh, timestamp := t + cacheTTL + extra })])) := by
  refine ⟨?_, ?_, ?_, ?_⟩
  · intro α cache q v now
    have h := cacheGet_cacheSet cache (generateCacheKey q)
      ({ data := v, timestamp := now } : CacheEntry α)
    simp [cacheGetFresh, h, cacheTTL]
  · intro α k v t extra
    have h : cacheGet [(k, ({ data := v, timestamp := t } : CacheEntry α))] k =
        some { data := v, timestamp := t } := cacheGet_cacheSet [] k _
    simp only [cacheGetFresh, h]
    rw [if_neg (by simp only [cacheTTL]; omega)]
  · intro α cache k e
    exact cacheGet_cacheSet cache k e
  · intro α q fresh stale t extra
    have h : cacheGet [(generateCacheKey q,
        ({ data := stale, timestamp := t } : CacheEntry α))] (generateCacheKey q) =
        some { data := stale, timestamp := t } := cacheGet_cacheSet [] _ _
    simp only [searchCached, h]
    rw [if_neg (by simp only [cacheTTL]; omega)]
    simp [cacheSet]

/-- C8 counterexample: a malformed query (empty destination) is *not*
rejected — `searchAllSources` happily runs the fan-out and returns the
adapter's records (in the `flights` field, by the fixed-index assignment),
and `search` proceeds to compute and cache a result instead of raising any
`ValidationError` (no validation code exists). -/
theorem C8_no_validation_counterexample :
    searchAllSources emptyDestQuery (Except.ok []) (Except.ok [grandPalaceDeal])
        (Except.ok []) =
      { flights := [RawRecord.hotel grandPalaceDeal], hotels := []
        transport := [], experiences := [] } ∧
    searchCached [] emptyDestQuery (42 : ℕ) 0 =
      (42, [(generateCacheKey emptyDestQuery, { data := 42, timestamp := 0 })]) := by
  exact ⟨rfl, rfl⟩

/-- C8 amended: `search` performs no query validation at all.  The
destination is never inspected (changing it, even to the empty string,
cannot change what `searchAllSources` produces from given adapter
outcomes); a Flight query without an origin is processed by silently
pushing *no* search at all, yielding an all-empty result rather than an
error; and `search` on any query — malformed or not — proceeds to compute
and cache a result. -/
theorem C8_no_validation :
    (∀ (q : BookingQuery) (fo : Outcome FlightRoute) (ho : Outcome HotelDeal)
        (eo : Outcome Experience) (dest : String),
      searchAllSources { q with «to» := dest } fo ho eo = searchAllSources q fo ho eo) ∧
    (∀ (dest : String) (fo : Outcome FlightRoute) (ho : Outcome HotelDeal)
        (eo : Outcome Experience),
      searchAllSources (flightNoOriginQuery dest) fo ho eo =
        { flights := [], hotels := [], transport := [], experiences := [] }) ∧
    (∀ {α : Type} (q : BookingQuery) (fresh : α) (now : ℤ),
      searchCached [] q fresh now =
        (fresh, [(generateCacheKey q, { data := fresh, timestamp := now })])) := by
  refine ⟨?_, ?_, ?_⟩
  · intro q fo ho eo dest
    rcases q with ⟨ty, fr, dst, d, rd, p, fl, b⟩
    rfl
  · intro dest fo ho eo
    rfl
  · intro α q fresh now
    rfl

theorem jsRound_intFloor (q : ℚ) : jsRound q = ⌊q + 1 / 2⌋ := by
  unfold jsRound
  rw [Rat.floor_def', ← Rat.floor_def]

theorem bestOfGroup_multi (a b : HotelDeal) (rest : List HotelDeal) :
    bestOfGroup (a :: b :: rest) = some
      { (b :: rest).foldl (fun best cur => if cur.price < best.price then cur else best) a with
        firstTimeDeal := some ((a :: b :: rest).any fun d => d.specialDeals.any fun sd =>
          strIncludes (strToLower sd) "first" || strIncludes (strToLower sd) "new user")
        discount := some (computeDiscount
          (listMaxQ ((a :: b :: rest).map fun d => d.price))
          (((b :: rest).foldl (fun best cur => if cur.price < best.price then cur else best) a).price)) } := by
  have hlen : 1 < (a :: b :: rest).length := by
    simp only [List.length_cons]
    omega
  have hkey : bestOfGroup (a :: b :: rest) = some (
      if 1 < (a :: b :: rest).length then
        { (b :: rest).foldl (fun best cur => if cur.price < best.price then cur else best) a with
          firstTimeDeal := some ((a :: b :: rest).any fun d => d.specialDeals.any fun sd =>
            strIncludes (strToLower sd) "first" || strIncludes (strToLower sd) "new user")
          discount := some (computeDiscount
            (listMaxQ ((a :: b :: rest).map fun d => d.price))
            (((b :: rest).foldl (fun best cur => if cur.price < best.price then cur else best) a).price)) }
      else
        { (b :: rest).foldl (fun best cur => if cur.price < best.price then cur else best) a with
          firstTimeDeal := some ((a :: b :: rest).any fun d => d.specialDeals.any fun sd =>
            strIncludes (strToLower sd) "first" || strIncludes (strToLower sd) "new user") }) := rfl
  rw [hkey, if_pos hlen]

/-- C6 counterexample: a group of two deals for the same hotel whose prices
are both 0 (the normalizer's default for a missing price) makes
`(maxPrice - cheapest.price) / maxPrice` the JS `0/0 = NaN`, so the attached
`discount` is `NaN` — not a number satisfying `0 ≤ discountPercent ≤ 100` —
and this `NaN` survives into the `identifyBestDeals` output. -/
theorem C6_discount_nan_counterexample :
    (bestOfGroup [zeroDealA, zeroDealB]).bind (fun d => d.discount) = some JsNum.nan ∧
    identifyBestDeals [zeroDealA, zeroDealB] =
      [{ zeroDealA with firstTimeDeal := some false, discount := some JsNum.nan }] := by
  have hfold : [zeroDealB].foldl
      (fun best cur => if cur.price < best.price then cur else best) zeroDealA =
      zeroDealA := by decide
  have hmax : listMaxQ ([zeroDealA, zeroDealB].map fun d => d.price) = 0 := by decide
  have hp : zeroDealA.price = 0 := by decide
  have hftd : ([zeroDealA, zeroDealB].any fun d => d.specialDeals.any fun sd =>
      strIncludes (strToLower sd) "first" || strIncludes (strToLower sd) "new user") =
      false := by decide
  have hcd : computeDiscount 0 0 = JsNum.nan := by
    unfold computeDiscount
    rw [if_pos rfl, if_pos (by norm_num)]
  have hbg : bestOfGroup [zeroDealA, zeroDealB] =
      some { zeroDealA with firstTimeDeal := some false, discount := some JsNum.nan } := by
    have h := bestOfGroup_multi zeroDealA zeroDealB []
    rw [hfold, hmax, hp, hftd, hcd] at h
    exact h
  constructor
  · rw [hbg]
    rfl
  · have hgp : groupPairs (fun d => strToLower d.name) [zeroDealA, zeroDealB] =
        [("freebie hostel", [zeroDealA, zeroDealB])] := by decide
    unfold identifyBestDeals
    rw [hgp, List.filterMap_cons, hbg]
    rfl

/-- C6 amended: *provided every price in the group is positive* (so the JS
division cannot hit `0/0`), the representative of a multi-member merge group
has the group's minimum price and carries
`discount = round(((maxPrice − minPrice)/maxPrice) × 100)` with
`0 ≤ discount ≤ 100`; for singleton groups the `discount` field is left
untouched (no discount is computed). -/
theorem C6_discount_formula_and_bound :
    (∀ (a b : HotelDeal) (rest : List HotelDeal),
      (∀ x ∈ a :: b :: rest, 0 < x.price) →
      ∃ rep z, bestOfGroup (a :: b :: rest) = some rep ∧
        rep.price = listMinQ ((a :: b :: rest).map fun d => d.price) ∧
        z = jsRound ((listMaxQ ((a :: b :: rest).map fun d => d.price) -
            listMinQ ((a :: b :: rest).map fun d => d.price)) /
          listMaxQ ((a :: b :: rest).map fun d => d.price) * 100) ∧
        rep.discount = some (JsNum.val (z : ℚ)) ∧
        0 ≤ z ∧ z ≤ 100) ∧
    (∀ x : HotelDeal, (bestOfGroup [x]).map (fun d => d.discount) = some x.discount) := by
  constructor
  · intro a b rest hpos
    have hminp : ((b :: rest).foldl
        (fun best cur => if cur.price < best.price then cur else best) a).price =
        listMinQ ((a :: b :: rest).map fun d => d.price) := by
      have h := foldl_min_price (fun d => d.price) (b :: rest) a
      simpa [listMinQ] using h
    have hmx_ge : a.price ≤ listMaxQ ((a :: b :: rest).map fun d => d.price) := by
      have h := foldl_max_ge_init ((b :: rest).map fun d => d.price) a.price
      simpa [listMaxQ] using h
    have hmx_pos : 0 < listMaxQ ((a :: b :: rest).map fun d => d.price) :=
      lt_of_lt_of_le (hpos a (List.mem_cons_self _ _)) hmx_ge
    have hmn_le_a : listMinQ ((a :: b :: rest).map fun d => d.price) ≤ a.price := by
      have h := foldl_min_le_init ((b :: rest).map fun d => d.price) a.price
      simpa [listMinQ] using h
    have hmn_pos : 0 < listMinQ ((a :: b :: rest).map fun d => d.price) := by
      have hmem : listMinQ ((a :: b :: rest).map fun d => d.price) ∈
          (a :: b :: rest).map fun d => d.price := by
        have h := foldl_min_mem_q ((b :: rest).map fun d => d.price) a.price
        simpa [listMinQ] using h
      obtain ⟨y, hy, hyeq⟩ := List.mem_map.mp hmem
      exact hyeq ▸ hpos y hy
    have hmn_le_mx : listMinQ ((a :: b :: rest).map fun d => d.price) ≤
        listMaxQ ((a :: b :: rest).map fun d => d.price) := le_trans hmn_le_a hmx_ge
    have ht0 : 0 ≤ (listMaxQ ((a :: b :: rest).map fun d => d.price) -
        listMinQ ((a :: b :: rest).map fun d => d.price)) /
        listMaxQ ((a :: b :: rest).map fun d => d.price) * 100 :=
      mul_nonneg (div_nonneg (by linarith) (le_of_lt hmx_pos)) (by norm_num)
    have ht100 : (listMaxQ ((a :: b :: rest).map fun d => d.price) -
        listMinQ ((a :: b :: rest).map fun d => d.price)) /
        listMaxQ ((a :: b :: rest).map fun d => d.price) * 100 ≤ 100 := by
      have hd : (listMaxQ ((a :: b :: rest).map fun d => d.price) -
          listMinQ ((a :: b :: rest).map fun d => d.price)) /
          listMaxQ ((a :: b :: rest).map fun d => d.price) ≤ 1 := by
        rw [div_le_one hmx_pos]
        linarith
      linarith
    have hdisc : computeDiscount (listMaxQ ((a :: b :: rest).map fun d => d.price))
        (listMinQ ((a :: b :: rest).map fun d => d.price)) =
        JsNum.val ((jsRound ((listMaxQ ((a :: b :: rest).map fun d => d.price) -
          listMinQ ((a :: b :: rest).map fun d => d.price)) /
          listMaxQ ((a :: b :: rest).map fun d => d.price) * 100) : ℤ) : ℚ) := by
      unfold computeDiscount
      rw [if_neg (ne_of_gt hmx_pos)]
    refine ⟨_, _, bestOfGroup_multi a b rest, hminp, rfl, ?_, ?_, ?_⟩
    · show some (computeDiscount (listMaxQ ((a :: b :: rest).map fun d => d.price))
        (((b :: rest).foldl (fun best cur => if cur.price < best.price then cur else best) a).price)) = _
      rw [hminp, hdisc]
    · rw [jsRound_intFloor]
      refine Int.le_floor.mpr ?_
      push_cast
      linarith
    · rw [jsRound_intFloor]
      by_contra hcon
      push_neg at hcon
      have h101 : ((101 : ℤ) : ℚ) ≤ (listMaxQ ((a :: b :: rest).map fun d => d.price) -
          listMinQ ((a :: b :: rest).map fun d => d.price)) /
          listMaxQ ((a :: b :: rest).map fun d => d.price) * 100 + 1 / 2 :=
        Int.le_floor.mp (by omega)
      push_cast at h101
      linarith
  · intro x
    rfl

/-- C6 witness: the spec's own lodging scenario — prices 150, 120, 100 for
the same hotel — instantiates the amended theorem; the representative's
price is 100 and the attached discount is `round((150−100)/150×100) = 33`,
within bounds. -/
theorem C6_discount_witness :
    ((∀ x ∈ [grand150, grand120, grand100], 0 < x.price) ∧
      (∃ rep z, bestOfGroup [grand150, grand120, grand100] = some rep ∧
        rep.price = listMinQ ([grand150, grand120, grand100].map fun d => d.price) ∧
        z = jsRound ((listMaxQ ([grand150, grand120, grand100].map fun d => d.price) -
            listMinQ ([grand150, grand120, grand100].map fun d => d.price)) /
          listMaxQ ([grand150, grand120, grand100].map fun d => d.price) * 100) ∧
        rep.discount = some (JsNum.val (z : ℚ)) ∧
        0 ≤ z ∧ z ≤ 100)) ∧
    (bestOfGroup [grand150, grand120, grand100]).map (fun d => d.discount) =
      some (some (JsNum.val 33)) := by
  refine ⟨⟨by decide, C6_discount_formula_and_bound.1 grand150 grand120 [grand100] (by decide)⟩, ?_⟩
  have hfold : [grand120, grand100].foldl
      (fun best cur => if cur.price < best.price then cur else best) grand150 =
      grand100 := by decide
  have hmax : listMaxQ ([grand150, grand120, grand100].map fun d => d.price) = 150 := by
    decide
  have hp : grand100.price = 100 := by decide
  have hcd : computeDiscount 150 100 = JsNum.val 33 := by
    unfold computeDiscount
    rw [if_neg (by norm_num)]
    have harg : ((150 : ℚ) - 100) / 150 * 100 + 1 / 2 = 203 / 6 := by norm_num
    have hfl : jsRound (((150 : ℚ) - 100) / 150 * 100) = 33 := by
      rw [jsRound_intFloor, harg, Int.floor_eq_iff]
      constructor <;> norm_num
    rw [hfl]
    norm_num
  have h := bestOfGroup_multi grand150 grand120 [grand100]
  rw [hfold, hmax, hp, hcd] at h
  rw [h]
  rfl

/-- C9 (evaluating the code at the failing input): `parseDuration` maps the
documented formats correctly ("2h 30m" → 150, a plain number passes through,
unparsable strings — including upper-case ISO-8601-like "PT2H30M" — fall
back to 0), but a *missing* duration is not caught by the `typeof` guard:
`duration.match(...)` is evaluated on `undefined` and throws a `TypeError`,
which makes `normalizeTransport` raise for the whole record instead of
defaulting the duration to 0. -/
theorem C9_duration_missing_throws :
    parseDuration .undef =
      .error "TypeError: Cannot read properties of undefined (reading 'match')" ∧
    normalizeTransport rawTransportNoDuration "12go" "r0" "2025-03-01T00:00:00Z" =
      .error "TypeError: Cannot read properties of undefined (reading 'match')" ∧
    parseDuration (.str "2h 30m") = .ok 150 ∧
    parseDuration (.num 150) = .ok 150 ∧
    parseDuration (.str "45m") = .ok 45 ∧
    parseDuration (.str "PT2H30M") = .ok 0 ∧
    parseDuration (.str "garbled") = .ok 0 := by
  exact ⟨rfl, by decide, by decide, by decide, by decide, by decide, by decide⟩

/-- C10 counterexample: normalization is *not* a deterministic function of
the collected raw records alone — a record without an id gets an id built
from the random suffix, and every output's `lastUpdated` embeds the current
clock, so two runs on the identical input under different ambient
randomness/clock yield different outputs. -/
theorem C10_normalization_not_pure_counterexample :
    normalizeFlight rawFlightNoId "skyscanner" "abc123" "2025-03-01T00:00:00Z" ≠
      normalizeFlight rawFlightNoId "skyscanner" "xyz789" "2025-03-02T00:00:00Z" := by
  decide

/-- C10 amended: merging and ranking are pure functions of their inputs (their
embeddings take no clock or RNG), and normalization is deterministic *modulo*
the two volatile fields: for any raw record, two runs under different ambient
randomness/clock agree on every field except possibly `id` and
`lastUpdated`, and when the raw record carries a non-empty id even the `id`
agrees. -/
theorem C10_normalization_deterministic_mod_id_time :
    (∀ (d : RawFlight) (s r r' t t' : String),
      (normalizeFlight d s r t).map stripVolatileF =
        (normalizeFlight d s r' t').map stripVolatileF) ∧
    (∀ (d : RawHotel) (s r r' t t' : String),
      stripVolatileH (normalizeHotel d s r t) =
        stripVolatileH (normalizeHotel d s r' t')) ∧
    (∀ (d : RawFlight) (s i r r' t t' : String), i ≠ "" →
      (normalizeFlight { d with id := some i } s r t).map NormalizedFlight.id =
        (normalizeFlight { d with id := some i } s r' t').map NormalizedFlight.id) := by
  refine ⟨?_, ?_, ?_⟩
  · intro d s r r' t t'
    unfold normalizeFlight
    cases h1 : normalizeSegments (jsOrArr d.segments d.flights) with
    | error e => rfl
    | ok segs =>
      cases h2 : calculateTotalDuration d with
      | error e => rfl
      | ok dur => rfl
  · intro d s r r' t t'
    rfl
  · intro d s i r r' t t' hne
    unfold normalizeFlight
    cases h1 : normalizeSegments (jsOrArr (RawFlight.segments { d with id := some i })
        (RawFlight.flights { d with id := some i })) with
    | error e => rfl
    | ok segs =>
      cases h2 : calculateTotalDuration { d with id := some i } with
      | error e => rfl
      | ok dur =>
        show Except.ok (NormalizedFlight.id _) = Except.ok (NormalizedFlight.id _)
        simp only [NormalizedFlight.id]
        simp [jsOrS, hne]

/-- C10 witness: instantiating the id-stability part at a concrete record
with a non-empty id. -/
theorem C10_normalization_witness :
    ("FL123" : String) ≠ "" ∧
    (normalizeFlight { rawFlightNoId with id := some "FL123" } "sky" "r1" "t1").map
        NormalizedFlight.id =
      (normalizeFlight { rawFlightNoId with id := some "FL123" } "sky" "r2" "t2").map
        NormalizedFlight.id :=
  ⟨by decide, C10_normalization_deterministic_mod_id_time.2.2 rawFlightNoId "sky" "FL123"
    "r1" "r2" "t1" "t2" (by decide)⟩

end Travel
